import Mathlib

/-!
Verification of the kernel messaging session and execution protocol client
of the vscode-jupyterhub-remote extension.

The definitions below are a shallow embedding of `RemoteKernelSession`
(kernelSession.ts) and of the output-translation part of
`RemoteKernelController` (controller.ts).

Modelling conventions:
* An inbound message (`msg: any` in the source) is a record of optional
  fields: accessing a property of a possibly-`undefined` object is modelled
  by pattern matching on the `Option`, and a JavaScript `TypeError` thrown
  by such an access (e.g. `msg.header.msg_type` when `header` is absent) is
  recorded as a `threw` flag.  The WebSocket `message` callback wraps both
  `JSON.parse` and the dispatched handler in `try/catch`, so a throw is
  converted into a `Logger.error` call (`logged` flag); no exception can
  escape the callback, which is why the result types below have no failure
  alternative.
* The JavaScript `Map` keyed by message id is modelled as an association
  list with `mapGet` / `mapSet` / `mapDelete` mirroring `get` / `set` /
  `delete`.
* `JSON.parse` failure is modelled by the `Frame.malformed` constructor;
  `decode` returns `Except.error ()` for it (the MalformedMessage
  condition of the specification).
* `uuidv4()` and `new Date().toISOString()` are nondeterministic in the
  source, so the fresh message id and the date are taken as parameters.
-/

namespace KernelClient

/-- Header of an inbound message: both fields may be absent on the wire. -/
structure RawHeader where
  msg_id : Option String
  msg_type : Option String
deriving DecidableEq, Repr

/-- The `parent_header` object of an inbound message. -/
structure RawParent where
  msg_id : Option String
deriving DecidableEq, Repr

/-- The `content` object of an inbound message; only the fields the client
reads are modelled, each optional since the payload is type-specific. -/
structure RawContent where
  execution_state : Option String
  ename : Option String
  evalue : Option String
  traceback : Option (List String)
  name : Option String
  text : Option String
  data : Option (List (String × String))
deriving DecidableEq, Repr

/-- An inbound kernel message as received by `handleMessage` (the parsed
JSON value, so every component may be absent). -/
structure InMsg where
  header : Option RawHeader
  parent_header : Option RawParent
  content : Option RawContent
deriving DecidableEq, Repr

/-- The value `msg.parent_header?.msg_id` (optional chaining never throws). -/
def parentOf (m : InMsg) : Option String :=
  match m.parent_header with
  | none => none
  | some p => p.msg_id

/-- The value `msg.header.msg_type` when `header` is present; `none` when
either `header` or its `msg_type` is absent. -/
def headerType (m : InMsg) : Option String :=
  match m.header with
  | none => none
  | some h => h.msg_type

/-- The two handler shapes ever stored in `msgIdToHandler`: the closure
built by `executeCode` and the one built by `requestComplete`. -/
inductive HandlerKind
  | exec
  | complete
deriving DecidableEq, Repr

/-- The `msgIdToHandler` map, as an association list. -/
abbrev Pending := List (String × HandlerKind)

/-- `Map.get` on the pending table. -/
def mapGet : Pending → String → Option HandlerKind
  | [], _ => none
  | (k, v) :: rest, key => if k = key then some v else mapGet rest key

/-- `Map.has` on the pending table. -/
def mapHas (st : Pending) (key : String) : Bool :=
  (mapGet st key).isSome

/-- `Map.delete` on the pending table. -/
def mapDelete : Pending → String → Pending
  | [], _ => []
  | (k, v) :: rest, key =>
    if k = key then mapDelete rest key else (k, v) :: mapDelete rest key

/-- `Map.set` on the pending table (replaces any existing entry for the
key; the position of the entry is irrelevant to every claim, only lookups
and size are observed). -/
def mapSet (st : Pending) (key : String) (v : HandlerKind) : Pending :=
  mapDelete st key ++ [(key, v)]

/-- The `msg_type` values that `executeCode`'s handler forwards to
`onOutput`. -/
def isOutputType (t : Option String) : Bool :=
  decide (t = some "stream" ∨ t = some "execute_result" ∨
          t = some "display_data" ∨ t = some "error")

/-- Result of running the closure registered by `executeCode` on one
inbound message: the `onOutput` invocations (in order), whether the
promise was resolved, and whether the closure threw (always caught by the
message callback). -/
structure ExecHandlerResult where
  outputs : List InMsg
  resolved : Bool
  threw : Bool
deriving DecidableEq, Repr

/-- The closure registered by `executeCode` (kernelSession.ts lines
102-116): reads `msg.header.msg_type` (throws when `header` is absent),
forwards output-typed messages to `onOutput`, and on a `status` message
reads `msg.content.execution_state` (throws when `content` is absent),
resolving when it equals `"idle"`. -/
def runExecHandler (m : InMsg) : ExecHandlerResult :=
  match m.header with
  | none => ⟨[], false, true⟩
  | some h =>
    let outs := if isOutputType h.msg_type then [m] else []
    if h.msg_type = some "status" then
      match m.content with
      | none => ⟨outs, false, true⟩
      | some c =>
        if c.execution_state = some "idle" then ⟨outs, true, false⟩
        else ⟨outs, false, false⟩
    else ⟨outs, false, false⟩

/-- Result of running the closure registered by `requestComplete`:
`resolvedContent = some c` when it saw a `complete_reply` and resolved
with `msg.content` (itself possibly absent). -/
structure CompleteHandlerResult where
  resolvedContent : Option (Option RawContent)
  threw : Bool
deriving DecidableEq, Repr

/-- The closure registered by `requestComplete` (kernelSession.ts lines
148-153). -/
def runCompleteHandler (m : InMsg) : CompleteHandlerResult :=
  match m.header with
  | none => ⟨none, true⟩
  | some h =>
    if h.msg_type = some "complete_reply" then ⟨some m.content, false⟩
    else ⟨none, false⟩

/-- Observable outcome of one `handleMessage` call: the pending table
afterwards, which handler (by key) was invoked, the `onOutput` deliveries
tagged with the request id they belong to, the request ids resolved, the
completion contents resolved, and whether the invoked handler threw. -/
structure DispatchResult where
  pending : Pending
  invoked : Option String
  outputs : List (String × InMsg)
  resolvedIds : List String
  completeResolved : List (String × Option RawContent)
  threw : Bool
deriving DecidableEq, Repr

/-- `handleMessage` (kernelSession.ts lines 63-69): reads
`msg.parent_header?.msg_id`; when it is present, truthy (a nonempty
string) and registered, invokes that handler.  The resolution side effect
(`this.msgIdToHandler.delete(msgId); resolve()`) of the invoked closure is
applied to the table. -/
def handleMessage (st : Pending) (m : InMsg) : DispatchResult :=
  match parentOf m with
  | none => ⟨st, none, [], [], [], false⟩
  | some pid =>
    if pid = "" then ⟨st, none, [], [], [], false⟩
    else
      match mapGet st pid with
      | none => ⟨st, none, [], [], [], false⟩
      | some HandlerKind.exec =>
        let r := runExecHandler m
        ⟨if r.resolved then mapDelete st pid else st, some pid,
         r.outputs.map (fun o => (pid, o)),
         if r.resolved then [pid] else [], [], r.threw⟩
      | some HandlerKind.complete =>
        let r := runCompleteHandler m
        match r.resolvedContent with
        | some c => ⟨mapDelete st pid, some pid, [], [], [(pid, c)], r.threw⟩
        | none => ⟨st, some pid, [], [], [], r.threw⟩

/-- One inbound transport frame: either not valid JSON (`JSON.parse`
throws) or a parsed message. -/
inductive Frame
  | malformed
  | ok (m : InMsg)
deriving DecidableEq, Repr

/-- decode: `JSON.parse(data.toString())`; `Except.error ()` is the
MalformedMessage condition. -/
def decode : Frame → Except Unit InMsg
  | Frame.malformed => Except.error ()
  | Frame.ok m => Except.ok m

/-- Observable outcome of the WebSocket `message` callback on one frame.
`logged` records a `Logger.error` call (parse failure or a caught handler
throw).  The callback catches everything, so there is no failure
alternative. -/
structure CallbackResult where
  pending : Pending
  outputs : List (String × InMsg)
  resolvedIds : List String
  completeResolved : List (String × Option RawContent)
  logged : Bool
deriving DecidableEq, Repr

/-- The `ws.on('message', ...)` callback (kernelSession.ts lines 44-51):
`try { const msg = JSON.parse(...); this.handleMessage(msg); } catch (e)
{ Logger.error(...) }`. -/
def onMessageCallback (st : Pending) (f : Frame) : CallbackResult :=
  match decode f with
  | Except.error _ => ⟨st, [], [], [], true⟩
  | Except.ok m =>
    let d := handleMessage st m
    ⟨d.pending, d.outputs, d.resolvedIds, d.completeResolved, d.threw⟩

/-- Processing a finite sequence of inbound frames, accumulating the
`onOutput` deliveries in order. -/
def runFrames : Pending → List Frame → Pending × List (String × InMsg)
  | st, [] => (st, [])
  | st, f :: fs =>
    let r := onMessageCallback st f
    let rest := runFrames r.pending fs
    (rest.1, r.outputs ++ rest.2)

/-- Parent id matches the request id and is truthy. -/
def matchesParent (m : InMsg) (reqId : String) : Bool :=
  decide (parentOf m = some reqId)

/-- The terminating condition for an execute request: a `status` message
with matching parent whose content carries `execution_state = "idle"`. -/
def isTerminal (m : InMsg) (reqId : String) : Bool :=
  matchesParent m reqId &&
  decide (headerType m = some "status") &&
  (match m.content with
   | some c => decide (c.execution_state = some "idle")
   | none => false)

/-- A message with matching parent whose type is forwarded to `onOutput`. -/
def isMatchingOutput (m : InMsg) (reqId : String) : Bool :=
  matchesParent m reqId && isOutputType (headerType m)

/-- Reference description of the `onOutput` deliveries of one execute
round trip: the matching output-typed messages preceding the first
terminating idle status, in emission order. -/
def expectedOutputs (reqId : String) : List InMsg → List InMsg
  | [] => []
  | m :: ms =>
    if isTerminal m reqId then []
    else (if isMatchingOutput m reqId then [m] else []) ++ expectedOutputs reqId ms

/-- WebSocket ready states (the source compares against `WebSocket.OPEN`
and `WebSocket.CONNECTING`). -/
inductive ReadyState
  | connecting
  | opened
  | closing
  | closed
deriving DecidableEq, Repr

/-- A transport connection as the session observes it: the URL and the
Authorization header it was constructed with, and its current state. -/
structure WS where
  url : String
  authHeader : String
  readyState : ReadyState
deriving DecidableEq, Repr

/-- State of a `RemoteKernelSession`: constructor parameters `wsUrl` and
`token`, the per-instance `session` identity, `ws` (null until connect),
and the `msgIdToHandler` table. -/
structure Session where
  wsUrl : String
  token : String
  sessionId : String
  ws : Option WS
  pending : Pending
deriving DecidableEq, Repr

/-- The guard `this.ws && (readyState === OPEN || readyState === CONNECTING)`. -/
def isOpenOrConnecting (s : Session) : Bool :=
  match s.ws with
  | some w => decide (w.readyState = ReadyState.opened ∨
                      w.readyState = ReadyState.connecting)
  | none => false

/-- The guard `this.ws && this.ws.readyState === WebSocket.OPEN` (negated
form `!this.ws || readyState !== OPEN` in the source). -/
def isWsOpen (s : Session) : Bool :=
  match s.ws with
  | some w => decide (w.readyState = ReadyState.opened)
  | none => false

/-- Result of one `connect()` call: the session afterwards and whether a
new underlying `WebSocket` object was constructed. -/
structure ConnectResult where
  session : Session
  createdConnection : Bool
deriving DecidableEq, Repr

/-- `connect` (kernelSession.ts lines 32-61): a no-op when the current
transport is open or connecting; otherwise constructs
`new WebSocket(this.wsUrl, { headers: { Authorization: "token <token>" } })`,
which starts in the CONNECTING state. -/
def connect (s : Session) : ConnectResult :=
  if isOpenOrConnecting s then ⟨s, false⟩
  else
    ⟨⟨s.wsUrl, s.token, s.sessionId,
      some ⟨s.wsUrl, "token " ++ s.token, ReadyState.connecting⟩,
      s.pending⟩, true⟩

/-- Two consecutive `connect()` calls; the number counts how many
underlying transport connections were created. -/
def connectTwice (s : Session) : Session × Nat :=
  let r1 := connect s
  let r2 := connect r1.session
  (r2.session,
   (if r1.createdConnection then 1 else 0) +
   (if r2.createdConnection then 1 else 0))

/-- Header of an outgoing message (the source fills `msg_id`, `username`,
`session`, `msg_type`, `version`, `date`). -/
structure OutHeader where
  msg_id : String
  username : String
  session : String
  msg_type : String
  version : String
  date : String
deriving DecidableEq, Repr

/-- Content of an outgoing `execute_request` (kernelSession.ts lines
88-95); `user_expressions` is the empty object. -/
structure ExecContentOut where
  code : String
  silent : Bool
  store_history : Bool
  user_expressions : List (String × String)
  allow_stdin : Bool
  stop_on_error : Bool
deriving DecidableEq, Repr

/-- A frame sent over the transport by this client. -/
inductive SentFrame
  | executeRequest (header : OutHeader) (content : ExecContentOut) (channel : String)
  | completeRequest (header : OutHeader) (code : String) (cursor_pos : Nat) (channel : String)
deriving DecidableEq, Repr

/-- The side-effecting steps `executeCode` performs, in source order. -/
inductive Action
  | assignId (id : String)
  | sendFrame (id : String)
  | registerHandler (id : String)
deriving DecidableEq, Repr

/-- Synchronous outcome of an `executeCode` call. -/
inductive ExecCall
  | threwNotConnected
  | awaitingIdle (msgId : String)
deriving DecidableEq, Repr

/-- Everything observable about one `executeCode` call up to its
suspension point: resulting session state, frames sent, the order of its
side-effecting steps, and its synchronous outcome. -/
structure ExecCallResult where
  session : Session
  sent : List SentFrame
  trace : List Action
  outcome : ExecCall
deriving DecidableEq, Repr

/-- `executeCode` (kernelSession.ts lines 71-119): throws
`Error('Kernel not connected')` unless the transport is OPEN; otherwise
generates a fresh message id (line 76), sends the encoded
`execute_request` (line 99), and registers the handler under the id
inside the promise executor (line 117).  `msgId` and `date` stand for
`uuidv4()` and `new Date().toISOString()`. -/
def executeCode (s : Session) (code : String) (msgId : String) (date : String) :
    ExecCallResult :=
  if isWsOpen s = false then ⟨s, [], [], ExecCall.threwNotConnected⟩
  else
    ⟨⟨s.wsUrl, s.token, s.sessionId, s.ws, mapSet s.pending msgId HandlerKind.exec⟩,
     [SentFrame.executeRequest
        ⟨msgId, "vscode", s.sessionId, "execute_request", "5.3", date⟩
        ⟨code, false, true, [], false, true⟩ "shell"],
     [Action.assignId msgId, Action.sendFrame msgId, Action.registerHandler msgId],
     ExecCall.awaitingIdle msgId⟩

/-- Synchronous outcome of a `requestComplete` call. -/
inductive CompleteCall
  | returnedNull
  | awaitingReply (msgId : String)
deriving DecidableEq, Repr

/-- Everything observable about one `requestComplete` call up to its
suspension point. -/
structure CompleteCallResult where
  session : Session
  sent : List SentFrame
  outcome : CompleteCall
deriving DecidableEq, Repr

/-- `requestComplete` (kernelSession.ts lines 121-156): returns `null`
unless the transport is OPEN; otherwise sends a `complete_request` and
registers the reply handler. -/
def requestComplete (s : Session) (code : String) (cursor_pos : Nat)
    (msgId : String) (date : String) : CompleteCallResult :=
  if isWsOpen s = false then ⟨s, [], CompleteCall.returnedNull⟩
  else
    ⟨⟨s.wsUrl, s.token, s.sessionId, s.ws, mapSet s.pending msgId HandlerKind.complete⟩,
     [SentFrame.completeRequest
        ⟨msgId, "vscode", s.sessionId, "complete_request", "5.3", date⟩
        code cursor_pos "shell"],
     CompleteCall.awaitingReply msgId⟩

/-- One item inside a `NotebookCellOutput`: either
`NotebookCellOutputItem.text(value, mime)` (the value may be the
JavaScript `undefined` when the content field was absent) or
`NotebookCellOutputItem.error({name, message, stack})`. -/
inductive NBItem
  | text (value : Option String) (mime : String)
  | errorItem (name : Option String) (message : Option String) (stack : String)
deriving DecidableEq, Repr

/-- `RemoteKernelController.handleIOPubMessage` (controller.ts lines
92-133), returning the list of `appendOutput` calls (each one a list of
items), or `Except.error ()` when a property access on an absent object
throws (`msg.header.msg_type`, `content.text`, `content.data`, or
`content.ename` / `content.traceback.join` with content or traceback
absent).  A `for (const key in data)` loop over an absent `data` runs
zero iterations, so that case still appends one (empty) output.  String
MIME values pass through `encodeData` unchanged. -/
def handleIOPubMessage (m : InMsg) : Except Unit (List (List NBItem)) :=
  match m.header with
  | none => Except.error ()
  | some h =>
    if h.msg_type = some "stream" then
      match m.content with
      | none => Except.error ()
      | some c =>
        if c.name = some "stdout" then
          Except.ok [[NBItem.text c.text "text/plain"]]
        else if c.name = some "stderr" then
          Except.ok [[NBItem.text c.text "application/vnd.code.notebook.stderr"]]
        else Except.ok []
    else if h.msg_type = some "execute_result" ∨ h.msg_type = some "display_data" then
      match m.content with
      | none => Except.error ()
      | some c =>
        match c.data with
        | none => Except.ok [[]]
        | some d => Except.ok [d.map (fun kv => NBItem.text (some kv.2) kv.1)]
    else if h.msg_type = some "error" then
      match m.content with
      | none => Except.error ()
      | some c =>
        match c.traceback with
        | none => Except.error ()
        | some tb =>
          Except.ok [[NBItem.errorItem c.ename c.evalue (String.intercalate "\n" tb)]]
    else Except.ok []

/-- Empty content record, for building concrete messages. -/
def emptyContent : RawContent := ⟨none, none, none, none, none, none, none⟩

/-- A table holding one pending execute request with id `"r"`. -/
def stR : Pending := [("r", HandlerKind.exec)]

/-- A kernel `error` message replying to request `"r"`. -/
def msgErr : InMsg :=
  ⟨some ⟨some "e1", some "error"⟩, some ⟨some "r"⟩,
   some ⟨none, some "ZeroDivisionError", some "division by zero",
         some ["line1", "line2"], none, none, none⟩⟩

/-- An idle `status` message replying to request `"r"`. -/
def msgIdle : InMsg :=
  ⟨some ⟨some "s1", some "status"⟩, some ⟨some "r"⟩,
   some ⟨some "idle", none, none, none, none, none, none⟩⟩

/-- An `execute_reply` message replying to request `"r"`: a non-status
message that the execute handler does not forward to `onOutput`. -/
def msgReply : InMsg :=
  ⟨some ⟨some "k1", some "execute_reply"⟩, some ⟨some "r"⟩, none⟩

/-- An `execute_result` message replying to request `"r"`. -/
def msgResult : InMsg :=
  ⟨some ⟨some "d1", some "execute_result"⟩, some ⟨some "r"⟩,
   some ⟨none, none, none, none, none, none, some [("text/plain", "2")]⟩⟩

/-- A structurally valid message whose header lacks `msg_type`. -/
def msgNoType : InMsg := ⟨some ⟨some "x", none⟩, some ⟨some "p"⟩, none⟩

/-- A session whose transport is open. -/
def sessOpen : Session :=
  ⟨"ws://h/api/kernels/k/channels", "tok", "sess",
   some ⟨"ws://h/api/kernels/k/channels", "token tok", ReadyState.opened⟩, []⟩

/-- A session whose transport has closed. -/
def sessClosed : Session :=
  ⟨"ws://h/api/kernels/k/channels", "tok", "sess",
   some ⟨"ws://h/api/kernels/k/channels", "token tok", ReadyState.closed⟩,
   [("q", HandlerKind.exec)]⟩

/-- A session that never connected. -/
def sessNoWs : Session := ⟨"ws://h/api/kernels/k/channels", "tok", "sess", none, []⟩

theorem mapGet_mapDelete (st : Pending) (k : String) :
    mapGet (mapDelete st k) k = none := by
  induction st with
  | nil => rfl
  | cons a rest ih =>
    obtain ⟨ak, av⟩ := a
    by_cases h : ak = k
    · simp [mapDelete, h, ih]
    · simp [mapDelete, mapGet, h, ih]

theorem mapGet_append_of_left_none (l1 l2 : Pending) (k : String)
    (h : mapGet l1 k = none) : mapGet (l1 ++ l2) k = mapGet l2 k := by
  induction l1 with
  | nil => rfl
  | cons a rest ih =>
    obtain ⟨ak, av⟩ := a
    by_cases hk : ak = k
    · simp [mapGet, hk] at h
    · simp [mapGet, hk] at h ⊢
      exact ih h

theorem mapGet_mapSet (st : Pending) (k : String) (v : HandlerKind) :
    mapGet (mapSet st k v) k = some v := by
  unfold mapSet
  rw [mapGet_append_of_left_none _ _ _ (mapGet_mapDelete st k)]
  simp [mapGet]

theorem handleMessage_noop (st : Pending) (m : InMsg)
    (h : ∀ pid, parentOf m = some pid → pid = "" ∨ mapGet st pid = none) :
    handleMessage st m = ⟨st, none, [], [], [], false⟩ := by
  unfold handleMessage
  cases hp : parentOf m with
  | none => rfl
  | some pid =>
    rcases h pid hp with h1 | h1
    · simp [h1]
    · by_cases he : pid = ""
      · simp [he]
      · simp [he, h1]

theorem handleMessage_exec (st : Pending) (m : InMsg) (pid : String)
    (hp : parentOf m = some pid) (hne : pid ≠ "")
    (hk : mapGet st pid = some HandlerKind.exec) :
    handleMessage st m =
      ⟨if (runExecHandler m).resolved then mapDelete st pid else st, some pid,
       (runExecHandler m).outputs.map (fun o => (pid, o)),
       if (runExecHandler m).resolved then [pid] else [], [],
       (runExecHandler m).threw⟩ := by
  unfold handleMessage
  rw [hp]
  simp [hne, hk]

theorem runExecHandler_resolved (m : InMsg) (reqId : String)
    (hp : parentOf m = some reqId) :
    (runExecHandler m).resolved = isTerminal m reqId := by
  unfold runExecHandler isTerminal matchesParent
  cases hh : m.header with
  | none => simp [headerType, hh]
  | some h =>
    by_cases hs : h.msg_type = some "status"
    · cases hc : m.content with
      | none => simp [headerType, hh, hs, hc]
      | some c =>
        by_cases hi : c.execution_state = some "idle" <;>
          simp [headerType, hh, hs, hc, hi, hp]
    · simp [headerType, hh, hs]

theorem runExecHandler_outputs (m : InMsg) :
    (runExecHandler m).outputs = if isOutputType (headerType m) then [m] else [] := by
  unfold runExecHandler
  cases hh : m.header with
  | none => simp [headerType, hh, isOutputType]
  | some h =>
    by_cases hs : h.msg_type = some "status"
    · cases hc : m.content with
      | none => simp [headerType, hh, hs]
      | some c =>
        by_cases hi : c.execution_state = some "idle" <;>
          simp [headerType, hh, hs, hi]
    · simp [headerType, hh, hs]

theorem runExecHandler_error (m : InMsg) (hhe : headerType m = some "error") :
    runExecHandler m = ⟨[m], false, false⟩ := by
  unfold runExecHandler
  cases hh : m.header with
  | none => simp [headerType, hh] at hhe
  | some h =>
    have ht : h.msg_type = some "error" := by simpa [headerType, hh] using hhe
    simp [ht, isOutputType]

theorem runExecHandler_noType (m : InMsg) (h : headerType m = none) :
    (runExecHandler m).outputs = [] ∧ (runExecHandler m).resolved = false := by
  unfold runExecHandler
  cases hh : m.header with
  | none => simp
  | some hd =>
    have ht : hd.msg_type = none := by simpa [headerType, hh] using h
    simp [ht, isOutputType]

theorem runCompleteHandler_noType (m : InMsg) (h : headerType m = none) :
    (runCompleteHandler m).resolvedContent = none := by
  unfold runCompleteHandler
  cases hh : m.header with
  | none => simp
  | some hd =>
    have ht : hd.msg_type = none := by simpa [headerType, hh] using h
    simp [ht]

/-- C5: dispatch of a message whose `parent_header.msg_id` is absent or
matches no entry in the pending-request table is a complete no-op: no
handler is invoked, the table is unchanged, nothing is delivered or
resolved, and nothing is thrown. -/
theorem dispatch_unmatched_noop (st : Pending) (m : InMsg)
    (h : ∀ pid, parentOf m = some pid → mapGet st pid = none) :
    handleMessage st m = ⟨st, none, [], [], [], false⟩ :=
  handleMessage_noop st m (fun pid hp => Or.inr (h pid hp))

/-- Witness for C5 at a concrete table and message. -/
theorem dispatch_unmatched_noop_witness :
    (∀ pid, parentOf msgNoType = some pid → mapGet stR pid = none) ∧
    handleMessage stR msgNoType = ⟨stR, none, [], [], [], false⟩ := by
  have h : ∀ pid, parentOf msgNoType = some pid → mapGet stR pid = none := by
    intro pid hp
    have : "p" = pid := by
      simpa [msgNoType, parentOf] using hp
    subst this
    rfl
  exact ⟨h, dispatch_unmatched_noop stR msgNoType h⟩

/-- C6: while the transport is not open, `requestComplete` returns `null`
without sending anything or touching the pending table, and `executeCode`
throws its NotConnected error synchronously, also without sending or
registering anything. -/
theorem notConnected_sync_results (s : Session) (code : String) (cp : Nat)
    (msgId date : String) (h : isWsOpen s = false) :
    requestComplete s code cp msgId date = ⟨s, [], CompleteCall.returnedNull⟩ ∧
    executeCode s code msgId date = ⟨s, [], [], ExecCall.threwNotConnected⟩ := by
  constructor
  · unfold requestComplete
    simp [h]
  · unfold executeCode
    simp [h]

/-- Witness for C6 on a session that never connected. -/
theorem notConnected_sync_results_witness :
    isWsOpen sessNoWs = false ∧
    (requestComplete sessNoWs "ab" 2 "m9" "d" =
        ⟨sessNoWs, [], CompleteCall.returnedNull⟩ ∧
     executeCode sessNoWs "ab" "m9" "d" =
        ⟨sessNoWs, [], [], ExecCall.threwNotConnected⟩) :=
  ⟨rfl, notConnected_sync_results sessNoWs "ab" 2 "m9" "d" rfl⟩

/-- C7: `connect` is idempotent: while the transport is open or
connecting it is a no-op that creates no new connection, so two
consecutive `connect` calls on an already-open session leave the session
with its single existing transport connection and create zero further
ones. -/
theorem connect_idempotent_when_open (s : Session)
    (h : isOpenOrConnecting s = true) :
    connect s = ⟨s, false⟩ ∧ connectTwice s = (s, 0) := by
  have h1 : connect s = ⟨s, false⟩ := by
    unfold connect
    simp [h]
  refine ⟨h1, ?_⟩
  unfold connectTwice
  simp [h1]

/-- Witness for C7 on an open session. -/
theorem connect_idempotent_when_open_witness :
    isOpenOrConnecting sessOpen = true ∧
    (connect sessOpen = ⟨sessOpen, false⟩ ∧ connectTwice sessOpen = (sessOpen, 0)) :=
  ⟨rfl, connect_idempotent_when_open sessOpen rfl⟩

/-- C10: when the previous transport exists but is neither open nor
connecting (it closed or failed), `connect` discards it and constructs a
fresh WebSocket in the connecting state with the same URL and the same
bearer-token Authorization header, leaving the rest of the session state
(token, session identity, pending table) intact. -/
theorem connect_reconnects_after_close (s : Session) (w : WS)
    (h1 : s.ws = some w) (h2 : isOpenOrConnecting s = false) :
    (connect s).createdConnection = true ∧
    (connect s).session.ws =
      some ⟨s.wsUrl, "token " ++ s.token, ReadyState.connecting⟩ ∧
    (connect s).session.wsUrl = s.wsUrl ∧
    (connect s).session.token = s.token ∧
    (connect s).session.sessionId = s.sessionId ∧
    (connect s).session.pending = s.pending := by
  unfold connect
  simp [h2]

/-- Witness for C10 on a session whose transport closed. -/
theorem connect_reconnects_after_close_witness :
    sessClosed.ws = some ⟨"ws://h/api/kernels/k/channels", "token tok", ReadyState.closed⟩ ∧
    isOpenOrConnecting sessClosed = false ∧
    ((connect sessClosed).createdConnection = true ∧
     (connect sessClosed).session.ws =
       some ⟨sessClosed.wsUrl, "token " ++ sessClosed.token, ReadyState.connecting⟩ ∧
     (connect sessClosed).session.wsUrl = sessClosed.wsUrl ∧
     (connect sessClosed).session.token = sessClosed.token ∧
     (connect sessClosed).session.sessionId = sessClosed.sessionId ∧
     (connect sessClosed).session.pending = sessClosed.pending) :=
  ⟨rfl, rfl,
   connect_reconnects_after_close sessClosed
     ⟨"ws://h/api/kernels/k/channels", "token tok", ReadyState.closed⟩ rfl rfl⟩

/-- C1: for a pending execute request, an inbound `error` message with
matching parent id is delivered to `onOutput` like any other output event
and does not by itself settle the outcome (nothing resolves and the
pending entry stays); the outcome resolves exactly when a `status`
message with `content.execution_state = "idle"` and matching parent id
arrives, at which point the pending entry for the request id is removed.
The promise executor of `executeCode` only ever calls `resolve`, which is
why the model has no rejection alternative. -/
theorem executeCode_error_nonterminal_idle_resolves
    (st : Pending) (reqId : String) (m : InMsg)
    (hk : mapGet st reqId = some HandlerKind.exec)
    (hp : parentOf m = some reqId) (hne : reqId ≠ "") :
    (headerType m = some "error" →
        (handleMessage st m).outputs = [(reqId, m)] ∧
        (handleMessage st m).resolvedIds = [] ∧
        (handleMessage st m).pending = st)
  ∧ ((handleMessage st m).resolvedIds = [reqId] ↔ isTerminal m reqId = true)
  ∧ (isTerminal m reqId = true →
        mapGet (handleMessage st m).pending reqId = none) := by
  have hd := handleMessage_exec st m reqId hp hne hk
  have hres := runExecHandler_resolved m reqId hp
  refine ⟨?_, ?_, ?_⟩
  · intro hhe
    have he := runExecHandler_error m hhe
    rw [hd, he]
    have hterm : isTerminal m reqId = false := by
      rw [← hres, he]
    simp
  · rw [hd, ← hres]
    cases hb : (runExecHandler m).resolved <;> simp
  · intro ht
    rw [hd]
    have : (runExecHandler m).resolved = true := by rw [hres]; exact ht
    rw [this]
    simp [mapGet_mapDelete]

/-- Witness for C1: the concrete error message is delivered without
resolving, and the concrete idle status resolves and clears the entry. -/
theorem executeCode_error_nonterminal_idle_resolves_witness :
    mapGet stR "r" = some HandlerKind.exec ∧
    parentOf msgErr = some "r" ∧ ("r" : String) ≠ "" ∧
    ((headerType msgErr = some "error" →
        (handleMessage stR msgErr).outputs = [("r", msgErr)] ∧
        (handleMessage stR msgErr).resolvedIds = [] ∧
        (handleMessage stR msgErr).pending = stR)
     ∧ ((handleMessage stR msgErr).resolvedIds = ["r"] ↔ isTerminal msgErr "r" = true)
     ∧ (isTerminal msgErr "r" = true →
        mapGet (handleMessage stR msgErr).pending "r" = none)) :=
  ⟨rfl, rfl, by decide,
   executeCode_error_nonterminal_idle_resolves stR "r" msgErr rfl rfl (by decide)⟩

/-- C3 counterexample: a structurally valid frame whose header lacks
`msg_type` is NOT a decode failure — `decode` succeeds on it — and it is
not logged either; only `JSON.parse` failures are treated as malformed. -/
theorem decode_missing_msg_type_cex :
    decode (Frame.ok msgNoType) = Except.ok msgNoType ∧
    decode (Frame.ok msgNoType) ≠ Except.error () ∧
    (onMessageCallback [] (Frame.ok msgNoType)).logged = false := by
  refine ⟨rfl, ?_, rfl⟩
  intro h
  simp [decode] at h

/-- C3 amended: decoding fails with the MalformedMessage condition exactly
when the frame is not valid structured data; such a frame is dropped and
logged with no dispatch and no change to the pending table.  A
structurally valid frame lacking `header.msg_type` is decoded and
dispatched instead, but produces no handler effect: no outputs, no
resolution, and the pending table is unchanged; in every case no
exception escapes the message callback (its try/catch converts throws
into log calls, which is why `onMessageCallback` is total). -/
theorem malformed_frame_contained (st : Pending) (f : Frame) :
    (decode f = Except.error () ↔ f = Frame.malformed)
  ∧ onMessageCallback st Frame.malformed = ⟨st, [], [], [], true⟩
  ∧ (∀ m, f = Frame.ok m → headerType m = none →
      (onMessageCallback st f).pending = st ∧
      (onMessageCallback st f).outputs = [] ∧
      (onMessageCallback st f).resolvedIds = [] ∧
      (onMessageCallback st f).completeResolved = []) := by
  refine ⟨?_, rfl, ?_⟩
  · cases f <;> simp [decode]
  · rintro m rfl hht
    show (handleMessage st m).pending = st ∧
      (handleMessage st m).outputs = [] ∧
      (handleMessage st m).resolvedIds = [] ∧
      (handleMessage st m).completeResolved = []
    cases hp : parentOf m with
    | none =>
      rw [handleMessage_noop st m (fun pid hpid => by rw [hp] at hpid; cases hpid)]
      exact ⟨rfl, rfl, rfl, rfl⟩
    | some pid =>
      by_cases he : pid = ""
      · subst he
        rw [handleMessage_noop st m (fun pid2 hpid2 => by
          rw [hp] at hpid2
          exact Or.inl (Option.some.inj hpid2).symm)]
        exact ⟨rfl, rfl, rfl, rfl⟩
      · cases hk : mapGet st pid with
        | none =>
          rw [handleMessage_noop st m (fun pid2 hpid2 => by
            rw [hp] at hpid2
            rw [← Option.some.inj hpid2]
            exact Or.inr hk)]
          exact ⟨rfl, rfl, rfl, rfl⟩
        | some kind =>
          cases kind with
          | exec =>
            have hd := handleMessage_exec st m pid hp he hk
            obtain ⟨ho, hr⟩ := runExecHandler_noType m hht
            rw [hd, ho, hr]
            simp
          | complete =>
            have hc := runCompleteHandler_noType m hht
            unfold handleMessage
            rw [hp]
            simp [he, hk, hc]

/-- Witness for C3: the malformed branch and the missing-`msg_type`
branch of the amended statement at concrete inputs. -/
theorem malformed_frame_contained_witness :
    (decode Frame.malformed = Except.error () ↔ Frame.malformed = Frame.malformed) ∧
    onMessageCallback stR Frame.malformed = ⟨stR, [], [], [], true⟩ ∧
    headerType msgNoType = none ∧
    ((onMessageCallback stR (Frame.ok msgNoType)).pending = stR ∧
     (onMessageCallback stR (Frame.ok msgNoType)).outputs = [] ∧
     (onMessageCallback stR (Frame.ok msgNoType)).resolvedIds = [] ∧
     (onMessageCallback stR (Frame.ok msgNoType)).completeResolved = []) :=
  ⟨(malformed_frame_contained stR Frame.malformed).1,
   (malformed_frame_contained stR Frame.malformed).2.1,
   rfl,
   (malformed_frame_contained stR (Frame.ok msgNoType)).2.2 msgNoType rfl rfl⟩

/-- C8: an `error` message reaching the controller's output handler
produces exactly one appended output holding exactly one structured error
item whose name is `content.ename`, whose message is `content.evalue`,
and whose stack is the entries of `content.traceback` joined with a
newline. -/
theorem error_message_single_error_output (m : InMsg) (hd : RawHeader)
    (c : RawContent) (tb : List String)
    (h1 : m.header = some hd) (h2 : hd.msg_type = some "error")
    (h3 : m.content = some c) (h4 : c.traceback = some tb) :
    handleIOPubMessage m =
      Except.ok [[NBItem.errorItem c.ename c.evalue (String.intercalate "\n" tb)]] := by
  unfold handleIOPubMessage
  rw [h1]
  simp [h2, h3, h4]

/-- Witness for C8: the ZeroDivisionError scenario of the specification. -/
theorem error_message_single_error_output_witness :
    msgErr.header = some ⟨some "e1", some "error"⟩ ∧
    handleIOPubMessage msgErr =
      Except.ok [[NBItem.errorItem (some "ZeroDivisionError")
        (some "division by zero") "line1\nline2"]] := by
  refine ⟨rfl, ?_⟩
  have h := error_message_single_error_output msgErr ⟨some "e1", some "error"⟩
    ⟨none, some "ZeroDivisionError", some "division by zero",
     some ["line1", "line2"], none, none, none⟩
    ["line1", "line2"] rfl rfl rfl rfl
  rw [h]
  rfl

/-- C9: dispatch routes an inbound message to at most one handler, the
one registered under the message's `parent_header.msg_id`: whenever a
handler is invoked its key is exactly the parent id and that key is in
the table, and every `onOutput` delivery caused by the message is tagged
with that same parent id and carries the message itself — so the events
of one pending request are never delivered to another request's handler. -/
theorem dispatch_at_most_one_handler (st : Pending) (m : InMsg) (k : String) :
    ((handleMessage st m).invoked = some k →
      parentOf m = some k ∧ mapHas st k = true)
  ∧ (∀ o : InMsg, (k, o) ∈ (handleMessage st m).outputs →
      parentOf m = some k ∧ o = m) := by
  unfold handleMessage
  cases hp : parentOf m with
  | none => simp
  | some pid =>
    by_cases he : pid = ""
    · simp [he]
    · cases hk : mapGet st pid with
      | none => simp [he, hk]
      | some kind =>
        cases kind with
        | exec =>
          simp only [he, hk, if_neg he]
          constructor
          · intro hkk
            obtain rfl : pid = k := Option.some.inj hkk
            exact ⟨rfl, by simp [mapHas, hk]⟩
          · intro o ho
            rw [runExecHandler_outputs] at ho
            by_cases hb : isOutputType (headerType m)
            · simp [hb] at ho
              obtain ⟨h5, h6⟩ := ho
              subst h5
              subst h6
              simp_all
            · simp [hb] at ho
        | complete =>
          simp only [he, hk]
          cases hc : (runCompleteHandler m).resolvedContent with
          | none =>
            simp only
            constructor
            · intro hkk
              obtain rfl : pid = k := Option.some.inj hkk
              exact ⟨rfl, by simp [mapHas, hk]⟩
            · intro o ho
              simp at ho
          | some cc =>
            simp only
            constructor
            · intro hkk
              obtain rfl : pid = k := Option.some.inj hkk
              exact ⟨rfl, by simp [mapHas, hk]⟩
            · intro o ho
              simp at ho

/-- Witness for C9: the concrete error message is delivered tagged with
its own request id. -/
theorem dispatch_at_most_one_handler_witness :
    ("r", msgErr) ∈ (handleMessage stR msgErr).outputs ∧
    (parentOf msgErr = some "r" ∧ msgErr = msgErr) :=
  ⟨by decide, (dispatch_at_most_one_handler stR msgErr "r").2 msgErr (by decide)⟩

/-- C4 counterexample: on an open session `executeCode` performs its
steps in the order assign id, send, register: the registration does not
precede the send, contrary to the claim. -/
theorem executeCode_register_order_cex :
    (executeCode sessOpen "1+1" "m1" "d").trace =
      [Action.assignId "m1", Action.sendFrame "m1", Action.registerHandler "m1"] ∧
    (executeCode sessOpen "1+1" "m1" "d").trace ≠
      [Action.assignId "m1", Action.registerHandler "m1", Action.sendFrame "m1"] := by
  decide

/-- C4 amended: for every execution request on an open transport,
`executeCode` first assigns a fresh message id, then sends the encoded
request frame, and then registers the handler for that id in the
pending-request table (all within the same synchronous turn, inside the
promise executor). -/
theorem executeCode_assign_send_register (s : Session) (code msgId date : String)
    (h : isWsOpen s = true) :
    (executeCode s code msgId date).trace =
      [Action.assignId msgId, Action.sendFrame msgId, Action.registerHandler msgId] ∧
    mapGet (executeCode s code msgId date).session.pending msgId =
      some HandlerKind.exec ∧
    (executeCode s code msgId date).sent =
      [SentFrame.executeRequest
        ⟨msgId, "vscode", s.sessionId, "execute_request", "5.3", date⟩
        ⟨code, false, true, [], false, true⟩ "shell"] := by
  unfold executeCode
  simp [h, mapGet_mapSet]

/-- Witness for the amended C4 on an open session. -/
theorem executeCode_assign_send_register_witness :
    isWsOpen sessOpen = true ∧
    ((executeCode sessOpen "2+2" "m2" "d").trace =
      [Action.assignId "m2", Action.sendFrame "m2", Action.registerHandler "m2"] ∧
     mapGet (executeCode sessOpen "2+2" "m2" "d").session.pending "m2" =
      some HandlerKind.exec ∧
     (executeCode sessOpen "2+2" "m2" "d").sent =
      [SentFrame.executeRequest
        ⟨"m2", "vscode", sessOpen.sessionId, "execute_request", "5.3", "d"⟩
        ⟨"2+2", false, true, [], false, true⟩ "shell"]) :=
  ⟨rfl, executeCode_assign_send_register sessOpen "2+2" "m2" "d" rfl⟩

theorem onMessageCallback_empty_state (f : Frame) :
    (onMessageCallback [] f).pending = [] ∧ (onMessageCallback [] f).outputs = [] := by
  cases f with
  | malformed => exact ⟨rfl, rfl⟩
  | ok m =>
    have h := handleMessage_noop [] m (fun pid _ => Or.inr rfl)
    unfold onMessageCallback decode
    simp [h]

theorem runFrames_empty (fs : List Frame) : runFrames [] fs = ([], []) := by
  induction fs with
  | nil => rfl
  | cons f fs ih =>
    obtain ⟨h1, h2⟩ := onMessageCallback_empty_state f
    unfold runFrames
    simp [h1, h2, ih]

theorem runFrames_cons (st : Pending) (f : Frame) (fs : List Frame) :
    runFrames st (f :: fs) =
      ((runFrames (onMessageCallback st f).pending fs).1,
       (onMessageCallback st f).outputs ++
         (runFrames (onMessageCallback st f).pending fs).2) := rfl

theorem onMessageCallback_ok (st : Pending) (m : InMsg) :
    onMessageCallback st (Frame.ok m) =
      ⟨(handleMessage st m).pending, (handleMessage st m).outputs,
       (handleMessage st m).resolvedIds, (handleMessage st m).completeResolved,
       (handleMessage st m).threw⟩ := rfl

theorem handleMessage_single_nonterminal (reqId : String) (hne : reqId ≠ "")
    (m : InMsg) (h : isTerminal m reqId = false) :
    (handleMessage [(reqId, HandlerKind.exec)] m).pending =
      [(reqId, HandlerKind.exec)] ∧
    (handleMessage [(reqId, HandlerKind.exec)] m).outputs =
      (if isMatchingOutput m reqId then [(reqId, m)] else []) := by
  cases hp : parentOf m with
  | none =>
    rw [handleMessage_noop _ m (fun pid hpid => by rw [hp] at hpid; cases hpid)]
    have hm : matchesParent m reqId = false := by simp [matchesParent, hp]
    simp [isMatchingOutput, hm]
  | some pid =>
    by_cases hpr : pid = reqId
    · rw [hpr] at hp
      have hd := handleMessage_exec [(reqId, HandlerKind.exec)] m reqId hp hne
        (by simp [mapGet])
      have hres : (runExecHandler m).resolved = false := by
        rw [runExecHandler_resolved m reqId hp]; exact h
      rw [hd, hres]
      have hm : matchesParent m reqId = true := by simp [matchesParent, hp]
      rw [runExecHandler_outputs]
      constructor
      · simp
      · unfold isMatchingOutput
        rw [hm]
        by_cases hb : isOutputType (headerType m) <;> simp [hb]
    · have hg : mapGet [(reqId, HandlerKind.exec)] pid = none := by
        have hne2 : reqId ≠ pid := fun hh => hpr hh.symm
        simp [mapGet, hne2]
      rw [handleMessage_noop _ m (fun pid2 hpid2 => by
        rw [hp] at hpid2
        rw [← Option.some.inj hpid2]
        exact Or.inr hg)]
      have hm : matchesParent m reqId = false := by
        unfold matchesParent
        rw [hp]
        exact decide_eq_false (fun hh => hpr (Option.some.inj hh))
      simp [isMatchingOutput, hm]

/-- C2 amended: for every execute round trip over any finite sequence of
inbound kernel messages, the `onOutput` invocations (all of which occur
before the outcome resolves, since resolution removes the pending entry)
are exactly, in emission order, the messages preceding the first
terminating idle status whose `parent_header.msg_id` matches the request
and whose `msg_type` is one of `stream`, `execute_result`,
`display_data`, `error`.  Matching non-status messages of any other type
(such as `execute_reply`) are not forwarded to `onOutput`. -/
theorem executeCode_outputs_eq_matching (reqId : String) (hne : reqId ≠ "")
    (msgs : List InMsg) :
    (runFrames [(reqId, HandlerKind.exec)] (msgs.map Frame.ok)).2 =
      (expectedOutputs reqId msgs).map (fun m => (reqId, m)) := by
  induction msgs with
  | nil => rfl
  | cons m ms ih =>
    by_cases ht : isTerminal m reqId = true
    · have h3 := ht
      unfold isTerminal at h3
      rw [Bool.and_eq_true, Bool.and_eq_true] at h3
      obtain ⟨⟨hmp, hstat0⟩, -⟩ := h3
      have hp : parentOf m = some reqId := of_decide_eq_true hmp
      have hstat : headerType m = some "status" := of_decide_eq_true hstat0
      have hd := handleMessage_exec [(reqId, HandlerKind.exec)] m reqId hp hne
        (by simp [mapGet])
      have hres : (runExecHandler m).resolved = true := by
        rw [runExecHandler_resolved m reqId hp]; exact ht
      have houts : (runExecHandler m).outputs = [] := by
        rw [runExecHandler_outputs, hstat]
        simp [isOutputType]
      have hdel : mapDelete [(reqId, HandlerKind.exec)] reqId = [] := by
        simp [mapDelete]
      simp [runFrames_cons, onMessageCallback_ok, hd, hres, houts, hdel,
        runFrames_empty, expectedOutputs, ht]
    · have htf : isTerminal m reqId = false := by simpa using ht
      have hstep := handleMessage_single_nonterminal reqId hne m htf
      simp [runFrames_cons, onMessageCallback_ok, hstep.1, hstep.2,
        expectedOutputs, htf, ih]
      by_cases hmo : isMatchingOutput m reqId <;> simp [hmo]

/-- Witness for the amended C2: a result, an error and the idle status. -/
theorem executeCode_outputs_eq_matching_witness :
    ("r" : String) ≠ "" ∧
    (runFrames [("r", HandlerKind.exec)]
        ([msgResult, msgErr, msgIdle].map Frame.ok)).2 =
      (expectedOutputs "r" [msgResult, msgErr, msgIdle]).map (fun m => ("r", m)) :=
  ⟨by decide,
   executeCode_outputs_eq_matching "r" (by decide) [msgResult, msgErr, msgIdle]⟩

/-- C2 counterexample: an `execute_reply` with matching parent id is a
non-status message, yet produces no `onOutput` invocation, so the count
of `onOutput` invocations (0) differs from the count of matching
non-status messages (1) in the round trip `[execute_reply, idle]`. -/
theorem nonstatus_count_mismatch_cex :
    (([msgReply, msgIdle].filter
        (fun m => matchesParent m "r" && decide (headerType m ≠ some "status"))).length
      = 1)
  ∧ ((runFrames [("r", HandlerKind.exec)]
        ([msgReply, msgIdle].map Frame.ok)).2.length = 0)
  ∧ ((runFrames [("r", HandlerKind.exec)]
        ([msgReply, msgIdle].map Frame.ok)).2.length ≠
     ([msgReply, msgIdle].filter
        (fun m => matchesParent m "r" && decide (headerType m ≠ some "status"))).length) := by
  decide

end KernelClient
